import Mathlib

/-!
# 1-show-time/main.c : a one-shot time server

A shallow embedding of `main` of `src/1-show-time/main.c`.

* Every call that leaves the program (Winsock / BSD sockets, stdio, `time`, `ctime`) is an
  `Event` of the run; the values those calls hand back are read from an `Env`, so a run is a
  function of the build (`Platform`) and of the answers of the outside world (`Env`).
* A `printf`/`fprintf` call is recorded with its format and arguments; the text it prints is
  not modelled.
* The C strings of the response (`char response[1024]`, `strcat`, `strlen`) are modelled on
  byte lists, byte by byte, with every array access bounds-checked: an access outside the
  array object makes the run undefined (`status = none`).
-/

namespace ShowTime

/-! ## C strings -/

/-- The bytes of a string literal of the source (all literals of `main.c` are ASCII). -/
def bytes (s : String) : List Nat := s.toList.map Char.toNat

/-- The constant of `#define RECV_BUFFER_SIZE 1024`. -/
def RECV_BUFFER_SIZE : Nat := 1024

/-- The function `strlen(s)`: the number of bytes before the first NUL of the object `s`;
`none` when the object holds no NUL (the scan would leave the object). -/
def strlen : List Nat → Option Nat
  | [] => none
  | c :: cs => if c = 0 then some 0 else (strlen cs).map (· + 1)

/-- The copy loop of `strcat`: copies the bytes of `src`, up to and including its NUL, to
`dest[i], dest[i+1], ...`; `none` when a write falls outside `dest` or `src` has no NUL. -/
def strcpy_at : List Nat → Nat → List Nat → Option (List Nat)
  | _, _, [] => none
  | dest, i, c :: cs =>
    if i < dest.length then
      if c = 0 then some (dest.set i 0) else strcpy_at (dest.set i c) (i + 1) cs
    else none

/-- The function `strcat(dest, src)` on the array object `dest` (its length is the capacity
of the array); `src = none` is the null pointer. -/
def strcat (dest : List Nat) (src : Option (List Nat)) : Option (List Nat) :=
  match src, strlen dest with
  | some s, some n => strcpy_at dest n s
  | _, _ => none

/-- The string literal that initialises `response` (line 151). -/
def response_literal : String :=
  "HTTP/1.1 200 OK\r\nConnection: close\r\nContent-Type: text/plain\r\n\r\nLocal time is: "

/-- The array of `char response[1024] = "...";` the literal, the rest zero-filled. -/
def response_init : List Nat :=
  bytes response_literal ++ List.replicate (1024 - (bytes response_literal).length) 0

/-- The response array after `strcat(response, time)` when the time string `t` fits. -/
def response_with (t : List Nat) : List Nat :=
  bytes response_literal ++ t ++ 0 :: List.replicate (944 - t.length) 0

/-! ## The build and the outside world -/

/-- The build: which branch of `#if defined(_WIN32)` is compiled, and the constants and sizes
the included system headers give (they are not part of the repository). -/
structure Platform where
  win32 : Bool
  INVALID_SOCKET : Int
  AF_INET : Int
  SOCK_STREAM : Int
  IPPROTO_TCP : Int
  AI_PASSIVE : Int
  NI_NUMERICHOST : Int
  sizeof_sockaddr_storage : Nat

/-- The fields of `ADDRINFOA` that `main` sets or reads (`ai_addr = []` is the null pointer;
`ai_canonname` and `ai_next` are only ever zeroed by the `memset`). -/
structure addrinfo where
  ai_flags : Int
  ai_family : Int
  ai_socktype : Int
  ai_protocol : Int
  ai_addrlen : Nat
  ai_addr : List Nat
deriving DecidableEq, Repr

/-- What the outside world answers in one run: the value each call returns (named after the
variable of `main` that receives it, or `<call>_ret`) and what it stores through its pointer
arguments. An answer is only read when the run gets to the call. -/
structure Env where
  /-- Value of `WSAStartup(MAKEWORD(2, 2), &d)` -/
  WSAStartup_ret : Int
  /-- Value of `getaddrinfo(0, "3000", &hints, &bind_address)` -/
  getaddrinfo_ret : Int
  /-- The `addrinfo` that `getaddrinfo` stores in `bind_address` -/
  bind_address : addrinfo
  /-- Value of `socket(...)` -/
  socket_listen : Int
  /-- Value of `bind(...)` -/
  bind_ret : Int
  /-- Value of `listen(socket_listen, 10)` -/
  listen_ret : Int
  /-- Value of `accept(...)` -/
  socket_client : Int
  /-- What `accept` stores in `client_address` and `client_len` -/
  client_address : List Nat
  client_len : Nat
  /-- Value of `getnameinfo(...)` and the content of `address_buffer` after it -/
  getnameinfo_ret : Int
  address_buffer : List Nat
  /-- Value of `recv(...)` and the content of `request` after it -/
  bytes_received : Int
  request : List Nat
  /-- What `time(&timer)` stores in `timer` -/
  timer : Int
  /-- Value of `ctime(&timer)`: `none` is the null pointer, `some m` the bytes pointed to -/
  time : Option (List Nat)
  /-- Value of `send(...)` -/
  bytes_sent : Int
  /-- Values of `WSAGetLastError()` and `errno` at the place where a diagnostic reads them -/
  WSAGetLastError : Int
  errno : Int

/-- An argument of a `printf`/`fprintf` call: an `int`, or a pointer to bytes. -/
inductive Arg where
  | int (v : Int)
  | str (s : List Nat)
deriving DecidableEq, Repr

/-- One call that leaves the program, with the arguments `main` passes and the value returned. -/
inductive Event where
  | WSAStartup (major minor : Nat) (ret : Int)
  | WSACleanup
  | printf (fmt : String) (args : List Arg)
  | fprintf_stderr (fmt : String) (args : List Arg)
  | getaddrinfo (node : Option String) (service : String) (hints : addrinfo) (ret : Int)
  | socket (af type protocol : Int) (ret : Int)
  | bind (s : Int) (addr : List Nat) (namelen : Nat) (ret : Int)
  | freeaddrinfo (ai : addrinfo)
  | listen (s : Int) (backlog : Int) (ret : Int)
  | accept (s : Int) (addrlen : Nat) (ret : Int)
  | CLOSESOCKET (s : Int)
  | getnameinfo (addr : List Nat) (addrlen : Nat) (hostlen : Nat) (servlen : Nat)
      (flags : Int) (ret : Int)
  | recv (s : Int) (len : Nat) (flags : Int) (ret : Int)
  | time (timer : Int)
  | ctime (timer : Int) (ret : Option (List Nat))
  | send (s : Int) (buf : List Nat) (len : Nat) (flags : Int) (ret : Int)
deriving DecidableEq, Repr

/-- A run of `main`: the calls made, in order, and the value returned by `main`
(`none`: the run left defined behaviour before `main` returned). -/
structure Run where
  trace : List Event
  status : Option Int
deriving DecidableEq, Repr

/-- The macro `GETSOCKETERRNO()`: `WSAGetLastError()` on `_WIN32`, `errno` otherwise. -/
def GETSOCKETERRNO (p : Platform) (env : Env) : Int :=
  if p.win32 then env.WSAGetLastError else env.errno

/-- The macro `ISVALIDSOCKET(socket)`: `!= INVALID_SOCKET` on `_WIN32`, `>= 0` otherwise. -/
def ISVALIDSOCKET (p : Platform) (socket : Int) : Bool :=
  if p.win32 then socket != p.INVALID_SOCKET else decide (socket ≥ 0)

/-- The block `#if defined(_WIN32) WSACleanup(); #endif`. -/
def cleanup (p : Platform) : List Event :=
  if p.win32 then [Event.WSACleanup] else []

/-- The block that ends every failing branch after initialisation:
`fprintf(stderr, fmt, GETSOCKETERRNO());`, the conditional `WSACleanup();`, `return 1;`. -/
def fail (p : Platform) (env : Env) (tr : List Event) (fmt : String) : Run :=
  ⟨tr ++ [Event.fprintf_stderr fmt [Arg.int (GETSOCKETERRNO p env)]] ++ cleanup p, some 1⟩

/-- The `hints` of lines 50-55: zeroed, then family, socket type, protocol and flags set. -/
def hints (p : Platform) : addrinfo :=
  ⟨p.AI_PASSIVE, p.AF_INET, p.SOCK_STREAM, p.IPPROTO_TCP, 0, []⟩

/-- The function `main` of `main.c`: the trace `tr` grows call by call, each `return` ends
the run. -/
def main (p : Platform) (env : Env) : Run :=
  -- lines 38-45, compiled on `_WIN32` only
  let tr := if p.win32 then [Event.WSAStartup 2 2 env.WSAStartup_ret] else []
  if p.win32 && env.WSAStartup_ret != 0 then
    ⟨tr ++ [Event.fprintf_stderr "Failed to initialize.\n" []], some 1⟩
  else
  -- lines 47-75
  let tr := tr ++ [Event.printf "Configuring local address...\n" [],
    Event.getaddrinfo none "3000" (hints p) env.getaddrinfo_ret]
  if env.getaddrinfo_ret ≠ 0 then
    fail p env tr "getaddrinfo() failed. (%d)\n"
  else
  -- lines 77-87
  let bind_address := env.bind_address
  let tr := tr ++ [Event.printf "Creating socket...\n" [],
    Event.socket bind_address.ai_family bind_address.ai_socktype bind_address.ai_protocol
      env.socket_listen]
  if !ISVALIDSOCKET p env.socket_listen then
    fail p env tr "socket() failed. (%d)\n"
  else
  -- lines 89-99
  let tr := tr ++ [Event.printf "Binding socket to call address...\n" [],
    Event.bind env.socket_listen bind_address.ai_addr bind_address.ai_addrlen env.bind_ret]
  if env.bind_ret ≠ 0 then
    fail p env tr "bind() failed. (%d)\n"
  else
  let tr := tr ++ [Event.freeaddrinfo bind_address]
  -- lines 101-110
  let tr := tr ++ [Event.printf "Listening...\n" [],
    Event.listen env.socket_listen 10 env.listen_ret]
  if env.listen_ret < 0 then
    fail p env tr "listen() failed. (%d)\n"
  else
  -- lines 112-130
  let tr := tr ++ [Event.printf "Waiting for connection...\n" [],
    Event.accept env.socket_listen p.sizeof_sockaddr_storage env.socket_client,
    Event.CLOSESOCKET env.socket_listen]
  if !ISVALIDSOCKET p env.socket_client then
    fail p env tr "accept() failed. (%d)\n"
  else
  -- lines 132-143
  let tr := tr ++ [Event.printf "Client is connected...\n" [],
    Event.getnameinfo env.client_address env.client_len 100 0 p.NI_NUMERICHOST
      env.getnameinfo_ret,
    Event.printf "%s\n" [Arg.str env.address_buffer],
    Event.printf "Reading request...\n" [],
    Event.recv env.socket_client RECV_BUFFER_SIZE 0 env.bytes_received,
    Event.printf "Received %d bytes.\n" [Arg.int env.bytes_received],
    Event.printf "Sending response...\n" []]
  -- lines 148-153
  let tr := tr ++ [Event.time env.timer, Event.ctime env.timer env.time]
  match strcat response_init env.time with
  | none => ⟨tr, none⟩
  | some response =>
  -- lines 155-166
  match strlen response with
  | none => ⟨tr, none⟩
  | some n =>
    ⟨tr ++ [Event.send env.socket_client response n 0 env.bytes_sent,
            Event.printf "Sent %d of %d bytes.\n" [Arg.int env.bytes_sent, Arg.int n],
            Event.printf "Closing connection...\n" [],
            Event.CLOSESOCKET env.socket_client]
        ++ cleanup p
        ++ [Event.printf "Finished.\n" []],
     some 0⟩

/-! ## Reading a run -/

/-- The fallible steps of `main`, in program order. -/
inductive Step where
  | init | getaddrinfo | socket | bind | listen | accept
deriving DecidableEq, Repr

/-- Position of a step in the order init, getaddrinfo, socket, bind, listen, accept. -/
def Step.index : Step → Nat
  | .init => 0 | .getaddrinfo => 1 | .socket => 2 | .bind => 3 | .listen => 4 | .accept => 5

/-- The answer of the outside world to a step is a success, as the interface of the call
defines success: `WSAStartup`, `getaddrinfo`, `bind`, `listen` return 0; `socket` and `accept`
return a valid handle. A build without `_WIN32` has no initialisation to fail. -/
def Step.ok (p : Platform) (env : Env) : Step → Prop
  | .init => p.win32 = true → env.WSAStartup_ret = 0
  | .getaddrinfo => env.getaddrinfo_ret = 0
  | .socket => ISVALIDSOCKET p env.socket_listen = true
  | .bind => env.bind_ret = 0
  | .listen => env.listen_ret = 0
  | .accept => ISVALIDSOCKET p env.socket_client = true

instance (p : Platform) (env : Env) (s : Step) : Decidable (s.ok p env) := by
  cases s <;> unfold Step.ok <;> infer_instance

/-- The call of `listen` answers as its interface says: 0 on success, -1 (`SOCKET_ERROR`) on failure. -/
def listen_conforms (env : Env) : Prop := env.listen_ret = 0 ∨ env.listen_ret = -1

instance (env : Env) : Decidable (listen_conforms env) := by
  unfold listen_conforms; infer_instance

/-- The step an event is the call of, if any. -/
def Event.step : Event → Option Step
  | .WSAStartup _ _ _ => some .init
  | .getaddrinfo _ _ _ _ => some .getaddrinfo
  | .socket _ _ _ _ => some .socket
  | .bind _ _ _ _ => some .bind
  | .listen _ _ _ => some .listen
  | .accept _ _ _ => some .accept
  | _ => none

/-- The handle an event operates on, for the calls that take a socket handle. -/
def Event.handle : Event → Option Int
  | .bind s _ _ _ => some s
  | .listen s _ _ => some s
  | .accept s _ _ => some s
  | .CLOSESOCKET s => some s
  | .recv s _ _ _ => some s
  | .send s _ _ _ _ => some s
  | _ => none

/-- The bytes a `send` call hands over: the first `len` bytes at `buf`. -/
def Event.sent : Event → Option (List Nat)
  | .send _ buf len _ _ => some (buf.take len)
  | _ => none

/-- The calls of the BSD socket interface (everything but stdio, `time`/`ctime` and the
Winsock start-up and clean-up). -/
def Event.isSocketOp : Event → Bool
  | .getaddrinfo _ _ _ _ | .socket _ _ _ _ | .bind _ _ _ _ | .freeaddrinfo _
  | .listen _ _ _ | .accept _ _ _ | .CLOSESOCKET _ | .getnameinfo _ _ _ _ _ _
  | .recv _ _ _ _ | .send _ _ _ _ _ => true
  | _ => false

def Event.isRecv : Event → Bool
  | .recv _ _ _ _ => true
  | _ => false

def Event.isSend : Event → Bool
  | .send _ _ _ _ _ => true
  | _ => false

def Event.isAccept : Event → Bool
  | .accept _ _ _ => true
  | _ => false

def Event.isFreeaddrinfo : Event → Bool
  | .freeaddrinfo _ => true
  | _ => false

/-- The start-up and clean-up of Winsock, compiled on `_WIN32` only. -/
def Event.isWinsockLifecycle : Event → Bool
  | .WSAStartup _ _ _ | .WSACleanup => true
  | _ => false

def Event.isBind : Event → Bool
  | .bind _ _ _ _ => true
  | _ => false

/-- A diagnostic on `stderr` that has the error code `code` among its arguments. -/
def Event.reports (code : Int) : Event → Bool
  | .fprintf_stderr _ args => args.contains (Arg.int code)
  | _ => false

/-- What the run handed to `send`, call by call. -/
def Run.sent (r : Run) : List (List Nat) := r.trace.filterMap Event.sent

/-- After the first `CLOSESOCKET(h)` of the trace, no call takes the handle `h` again. -/
def noUseAfterClose (h : Int) : List Event → Bool
  | [] => true
  | e :: es =>
    if e = Event.CLOSESOCKET h then es.all (fun e => e.handle != some h)
    else noUseAfterClose h es

/-- Every fallible step of the run is answered by a success. -/
def all_ok (p : Platform) (env : Env) : Prop :=
  Step.init.ok p env ∧ Step.getaddrinfo.ok p env ∧ Step.socket.ok p env ∧
  Step.bind.ok p env ∧ Step.listen.ok p env ∧ Step.accept.ok p env

instance (p : Platform) (env : Env) : Decidable (all_ok p env) := by
  unfold all_ok; infer_instance

/-- The C string `ctime` returns: the bytes before the first NUL at the returned pointer
(`none`: a null pointer, or no NUL in the object pointed to). -/
def ctime_string (env : Env) : Option (List Nat) :=
  match env.time with
  | none => none
  | some m => (strlen m).map (fun n => m.take n)

/-- With every step succeeding, what is sent and what `main` returns is a function of the
string `ctime` returns alone. -/
def outcome_of_time : Option (List Nat) → List (List Nat) × Option Int
  | none => ([], none)
  | some t => if t.length ≤ 944 then ([bytes response_literal ++ t], some 0) else ([], none)

/-- The calls of a run from its start through the call of step `s` (for `accept`, through
the `CLOSESOCKET(socket_listen)` that follows it), when the run gets that far. -/
def calls_through (p : Platform) (env : Env) (s : Step) : List Event :=
  let c0 := if p.win32 then [Event.WSAStartup 2 2 env.WSAStartup_ret] else []
  let c1 := c0 ++ [Event.printf "Configuring local address...\n" [],
    Event.getaddrinfo none "3000" (hints p) env.getaddrinfo_ret]
  let c2 := c1 ++ [Event.printf "Creating socket...\n" [],
    Event.socket env.bind_address.ai_family env.bind_address.ai_socktype
      env.bind_address.ai_protocol env.socket_listen]
  let c3 := c2 ++ [Event.printf "Binding socket to call address...\n" [],
    Event.bind env.socket_listen env.bind_address.ai_addr env.bind_address.ai_addrlen
      env.bind_ret]
  let c4 := c3 ++ [Event.freeaddrinfo env.bind_address,
    Event.printf "Listening...\n" [],
    Event.listen env.socket_listen 10 env.listen_ret]
  let c5 := c4 ++ [Event.printf "Waiting for connection...\n" [],
    Event.accept env.socket_listen p.sizeof_sockaddr_storage env.socket_client,
    Event.CLOSESOCKET env.socket_listen]
  match s with
  | .init => c0
  | .getaddrinfo => c1
  | .socket => c2
  | .bind => c3
  | .listen => c4
  | .accept => c5

/-- The calls between the test of the accepted handle and the building of the response. -/
def calls_before_response (p : Platform) (env : Env) : List Event :=
  [Event.printf "Client is connected...\n" [],
   Event.getnameinfo env.client_address env.client_len 100 0 p.NI_NUMERICHOST
     env.getnameinfo_ret,
   Event.printf "%s\n" [Arg.str env.address_buffer],
   Event.printf "Reading request...\n" [],
   Event.recv env.socket_client 1024 0 env.bytes_received,
   Event.printf "Received %d bytes.\n" [Arg.int env.bytes_received],
   Event.printf "Sending response...\n" [],
   Event.time env.timer,
   Event.ctime env.timer env.time]

/-- The format string of the diagnostic `main` prints when a step fails. -/
def diagnostic : Step → String
  | .init => "Failed to initialize.\n"
  | .getaddrinfo => "getaddrinfo() failed. (%d)\n"
  | .socket => "socket() failed. (%d)\n"
  | .bind => "bind() failed. (%d)\n"
  | .listen => "listen() failed. (%d)\n"
  | .accept => "accept() failed. (%d)\n"

/-- The test `main` makes on the answer of a step lets the run go on: `WSAStartup(...)`,
`getaddrinfo(...)` and `bind(...)` are zero, `ISVALIDSOCKET` holds of the handle,
`listen(...) < 0` is false. -/
def Step.passes (p : Platform) (env : Env) : Step → Prop
  | .init => p.win32 = true → env.WSAStartup_ret = 0
  | .getaddrinfo => env.getaddrinfo_ret = 0
  | .socket => ISVALIDSOCKET p env.socket_listen = true
  | .bind => env.bind_ret = 0
  | .listen => ¬ env.listen_ret < 0
  | .accept => ISVALIDSOCKET p env.socket_client = true

instance (p : Platform) (env : Env) (s : Step) : Decidable (s.passes p env) := by
  cases s <;> unfold Step.passes <;> infer_instance

/-- Step `s` is the first step of the run whose test sends the run to its failing branch. -/
def fails_first (p : Platform) (env : Env) (s : Step) : Prop :=
  (∀ s' : Step, s'.index < s.index → s'.passes p env) ∧ ¬ s.passes p env

/-- What C4 says of a trace, for the listening handle `l` and the accepted handle `c`:
`accept` is directly followed by `CLOSESOCKET(l)`, which is the only close of `l`; no call
after it takes `l`; no call takes `c` after `c` is closed. -/
def closed_right_after_accept (p : Platform) (env : Env) (tr : List Event) : Prop :=
  (∃ pre post, tr = pre ++
      [Event.accept env.socket_listen p.sizeof_sockaddr_storage env.socket_client,
       Event.CLOSESOCKET env.socket_listen] ++ post ∧
    (∀ e ∈ pre, e.isAccept = false ∧ e ≠ Event.CLOSESOCKET env.socket_listen) ∧
    (∀ e ∈ post, e.isAccept = false ∧ e.handle ≠ some env.socket_listen)) ∧
  tr.count (Event.CLOSESOCKET env.socket_listen) = 1 ∧
  noUseAfterClose env.socket_listen tr = true ∧
  noUseAfterClose env.socket_client tr = true

/-- What C7 says of a failing run: a diagnostic carries the code of `GETSOCKETERRNO()`,
`WSACleanup` is called once if Winsock was started and not at all otherwise, `main` returns 1. -/
def handled_identically (p : Platform) (env : Env) : Prop :=
  (main p env).trace.any (Event.reports (GETSOCKETERRNO p env)) = true ∧
  (main p env).trace.count Event.WSACleanup =
    (if p.win32 = true ∧ env.WSAStartup_ret = 0 then 1 else 0) ∧
  (main p env).status = some 1

instance (p : Platform) (env : Env) : Decidable (handled_identically p env) := by
  unfold handled_identically; infer_instance

/-! ## Sample builds and worlds -/

/-- A Linux build (glibc values of the constants). -/
def linux : Platform := ⟨false, -1, 2, 1, 6, 1, 1, 128⟩

/-- A 64-bit Windows build (Winsock values of the constants). -/
def windows : Platform := ⟨true, 18446744073709551615, 2, 1, 6, 1, 2, 128⟩

/-- A time string in the format of `ctime`. -/
def sample_time : List Nat := bytes "Fri Oct 30 04:00:00 2026\n"

/-- A world where every call succeeds: the listening socket is handle 3, the client
`127.0.0.1` gets handle 4 and sends a 16-byte request. -/
def env_ok : Env where
  WSAStartup_ret := 0
  getaddrinfo_ret := 0
  bind_address := ⟨1, 2, 1, 6, 16, [2, 0, 11, 184, 0, 0, 0, 0, 0, 0, 0, 0, 0, 0, 0, 0]⟩
  socket_listen := 3
  bind_ret := 0
  listen_ret := 0
  socket_client := 4
  client_address := [2, 0, 200, 10, 127, 0, 0, 1, 0, 0, 0, 0, 0, 0, 0, 0]
  client_len := 16
  getnameinfo_ret := 0
  address_buffer := bytes "127.0.0.1" ++ [0]
  bytes_received := 16
  request := bytes "GET / HTTP/1.1\r\n"
  timer := 1793332800
  time := some (sample_time ++ [0])
  bytes_sent := 104
  WSAGetLastError := 0
  errno := 0

/-- The port is taken: `bind` fails with `EADDRINUSE` (98). -/
def env_bind_fails : Env := { env_ok with bind_ret := -1, errno := 98 }

/-- Winsock cannot start: `WSAStartup` returns `WSASYSNOTREADY` (10091). -/
def env_init_fails : Env := { env_ok with WSAStartup_ret := 10091 }

/-! ## C strings: what `strlen` and `strcat` compute -/

theorem bytes_response_literal_length : (bytes response_literal).length = 79 := by decide

theorem bytes_response_literal_nul_free : 0 ∉ bytes response_literal := by decide

theorem response_init_eq : response_init = bytes response_literal ++ List.replicate 945 0 := by
  unfold response_init
  rw [bytes_response_literal_length]

theorem strlen_append_nul (t rest : List Nat) (ht : 0 ∉ t) :
    strlen (t ++ 0 :: rest) = some t.length := by
  induction t with
  | nil => simp [strlen]
  | cons c cs ih =>
    have hc : c ≠ 0 := fun h => ht (by simp [h])
    have hcs : 0 ∉ cs := fun h => ht (by simp [h])
    simp [strlen, hc, ih hcs]

theorem strlen_eq_some (l : List Nat) (n : Nat) (h : strlen l = some n) :
    n < l.length ∧ 0 ∉ l.take n ∧ l.drop n ≠ [] ∧ (l.drop n).head? = some 0 := by
  induction l generalizing n with
  | nil => simp [strlen] at h
  | cons c cs ih =>
    unfold strlen at h
    by_cases hc : c = 0
    · simp [hc] at h
      subst h
      simp [hc]
    · simp only [hc, if_false, Option.map_eq_some'] at h
      obtain ⟨m, hm, rfl⟩ := h
      obtain ⟨h1, h2, h3, h4⟩ := ih m hm
      refine ⟨by simpa using h1, ?_, by simpa using h3, by simpa using h4⟩
      simp only [List.take_succ_cons, List.mem_cons, not_or]
      exact ⟨fun h => hc h.symm, h2⟩

theorem strcpy_at_fits (t rest pre gap : List Nat) (ht : 0 ∉ t) (hfit : t.length < gap.length) :
    strcpy_at (pre ++ gap) pre.length (t ++ 0 :: rest)
      = some (pre ++ t ++ 0 :: gap.drop (t.length + 1)) := by
  induction t generalizing pre gap with
  | nil =>
    cases gap with
    | nil => simp at hfit
    | cons g gs => simp [strcpy_at]
  | cons c cs ih =>
    have hc : c ≠ 0 := fun h => ht (by simp [h])
    have hcs : 0 ∉ cs := fun h => ht (by simp [h])
    cases gap with
    | nil => simp at hfit
    | cons g gs =>
      have hlen : cs.length < gs.length := by simpa using hfit
      have h := ih (pre ++ [c]) gs hcs hlen
      simp only [List.length_append, List.length_singleton, List.append_assoc,
        List.singleton_append] at h
      simp [strcpy_at, hc, h]

theorem strcpy_at_overflows (t rest pre gap : List Nat) (ht : 0 ∉ t)
    (hbig : gap.length ≤ t.length) :
    strcpy_at (pre ++ gap) pre.length (t ++ 0 :: rest) = none := by
  induction t generalizing pre gap with
  | nil =>
    have : gap = [] := by simpa using hbig
    subst this
    simp [strcpy_at]
  | cons c cs ih =>
    have hc : c ≠ 0 := fun h => ht (by simp [h])
    have hcs : 0 ∉ cs := fun h => ht (by simp [h])
    cases gap with
    | nil => simp [strcpy_at]
    | cons g gs =>
      have hlen : gs.length ≤ cs.length := by simpa using hbig
      have h := ih (pre ++ [c]) gs hcs hlen
      simp only [List.length_append, List.length_singleton, List.append_assoc,
        List.singleton_append] at h
      simp [strcpy_at, hc, h]

theorem strlen_response_init : strlen response_init = some 79 := by
  rw [response_init_eq]
  have h := strlen_append_nul (bytes response_literal) (List.replicate 944 0)
    bytes_response_literal_nul_free
  rw [bytes_response_literal_length] at h
  exact h

theorem strcat_response_fits (t rest : List Nat) (ht : 0 ∉ t) (hlen : t.length ≤ 944) :
    strcat response_init (some (t ++ 0 :: rest)) = some (response_with t) := by
  unfold strcat
  simp only [strlen_response_init]
  rw [response_init_eq]
  have h := strcpy_at_fits t rest (bytes response_literal) (List.replicate 945 0) ht
    (by rw [List.length_replicate]; omega)
  rw [bytes_response_literal_length] at h
  rw [h, List.drop_replicate]
  have hsub : 945 - (t.length + 1) = 944 - t.length := by omega
  rw [hsub]
  rfl

theorem strcat_response_overflows (t rest : List Nat) (ht : 0 ∉ t) (hlen : 945 ≤ t.length) :
    strcat response_init (some (t ++ 0 :: rest)) = none := by
  unfold strcat
  simp only [strlen_response_init]
  rw [response_init_eq]
  have h := strcpy_at_overflows t rest (bytes response_literal) (List.replicate 945 0) ht
    (by rw [List.length_replicate]; exact hlen)
  rw [bytes_response_literal_length] at h
  exact h

theorem strlen_response_with (t : List Nat) (ht : 0 ∉ t) :
    strlen (response_with t) = some (79 + t.length) := by
  have h := strlen_append_nul (bytes response_literal ++ t) (List.replicate (944 - t.length) 0)
    (by simp [bytes_response_literal_nul_free, ht])
  rw [List.length_append, bytes_response_literal_length] at h
  exact h

theorem response_with_take (t : List Nat) :
    (response_with t).take (79 + t.length) = bytes response_literal ++ t := by
  have h : 79 + t.length = (bytes response_literal ++ t).length := by
    rw [List.length_append, bytes_response_literal_length]
  rw [h]
  unfold response_with
  exact List.take_left _ _

/-! ## The runs of `main` -/

theorem strcpy_at_no_nul (m dest : List Nat) (i : Nat) (h : strlen m = none) :
    strcpy_at dest i m = none := by
  induction m generalizing dest i with
  | nil => simp [strcpy_at]
  | cons c cs ih =>
    unfold strlen at h
    by_cases hc : c = 0
    · simp [hc] at h
    · simp only [hc, if_false, Option.map_eq_none'] at h
      simp [strcpy_at, hc, ih _ _ h]

theorem ctime_string_eq_some (env : Env) (t : List Nat) (h : ctime_string env = some t) :
    0 ∉ t ∧ ∃ rest, env.time = some (t ++ 0 :: rest) := by
  unfold ctime_string at h
  cases hm : env.time with
  | none => simp [hm] at h
  | some m =>
    simp only [hm, Option.map_eq_some'] at h
    obtain ⟨n, hn, rfl⟩ := h
    obtain ⟨_, h2, h3, h4⟩ := strlen_eq_some m n hn
    refine ⟨h2, (m.drop n).tail, ?_⟩
    have hd : m.drop n = 0 :: (m.drop n).tail := by
      cases hdn : m.drop n with
      | nil => exact absurd hdn h3
      | cons a as =>
        rw [hdn] at h4
        simp at h4
        simp [h4]
    rw [← hd, List.take_append_drop]

theorem ctime_string_eq_none (env : Env) (h : ctime_string env = none) :
    strcat response_init env.time = none := by
  unfold ctime_string at h
  cases hm : env.time with
  | none => simp [strcat]
  | some m =>
    simp only [hm, Option.map_eq_none'] at h
    simp [strcat, strlen_response_init, strcpy_at_no_nul m _ _ h]

theorem strcat_too_long (env : Env) (t : List Nat) (ht : ctime_string env = some t)
    (hlen : 945 ≤ t.length) : strcat response_init env.time = none := by
  obtain ⟨hnul, rest, hrest⟩ := ctime_string_eq_some env t ht
  rw [hrest]
  exact strcat_response_overflows t rest hnul hlen

theorem Step.passes_of_ok (p : Platform) (env : Env) (s : Step) (h : s.ok p env) :
    s.passes p env := by
  cases s <;> simp only [Step.ok] at h <;> simp only [Step.passes] <;>
    first | exact h | omega

theorem Step.ok_of_passes (p : Platform) (env : Env) (s : Step) (hl : listen_conforms env)
    (h : s.passes p env) : s.ok p env := by
  unfold listen_conforms at hl
  cases s <;> simp only [Step.passes] at h <;> simp only [Step.ok] <;>
    first | exact h | omega

theorem all_ok_passes (p : Platform) (env : Env) (h : all_ok p env) (s : Step) :
    s.passes p env := by
  obtain ⟨h0, h1, h2, h3, h4, h5⟩ := h
  cases s <;> exact Step.passes_of_ok p env _ (by assumption)

theorem not_all_ok_iff (p : Platform) (env : Env) :
    ¬ all_ok p env ↔ ∃ s : Step, ¬ s.ok p env := by
  constructor
  · intro h
    by_contra hne
    push_neg at hne
    exact h ⟨hne _, hne _, hne _, hne _, hne _, hne _⟩
  · rintro ⟨s, hs⟩ ⟨h0, h1, h2, h3, h4, h5⟩
    cases s <;> contradiction

theorem fails_first_of_not_passes (p : Platform) (env : Env) (s : Step)
    (h : ¬ s.passes p env) : ∃ s0 : Step, s0.index ≤ s.index ∧ fails_first p env s0 := by
  by_cases h0 : Step.init.passes p env
  · by_cases h1 : Step.getaddrinfo.passes p env
    · by_cases h2 : Step.socket.passes p env
      · by_cases h3 : Step.bind.passes p env
        · by_cases h4 : Step.listen.passes p env
          · refine ⟨.accept, ?_, ?_, ?_⟩
            · cases s <;> first | contradiction | simp [Step.index]
            · intro s' hs'
              cases s' <;> first | assumption | simp [Step.index] at hs'
            · cases s <;> first | contradiction | assumption
          · refine ⟨.listen, ?_, ?_, h4⟩
            · cases s <;> first | contradiction | simp [Step.index]
            · intro s' hs'
              cases s' <;> first | assumption | simp [Step.index] at hs'
        · refine ⟨.bind, ?_, ?_, h3⟩
          · cases s <;> first | contradiction | simp [Step.index]
          · intro s' hs'
            cases s' <;> first | assumption | simp [Step.index] at hs'
      · refine ⟨.socket, ?_, ?_, h2⟩
        · cases s <;> first | contradiction | simp [Step.index]
        · intro s' hs'
          cases s' <;> first | assumption | simp [Step.index] at hs'
    · refine ⟨.getaddrinfo, ?_, ?_, h1⟩
      · cases s <;> first | contradiction | simp [Step.index]
      · intro s' hs'
        cases s' <;> first | assumption | simp [Step.index] at hs'
  · refine ⟨.init, ?_, ?_, h0⟩
    · simp [Step.index]
    · intro s' hs'
      simp [Step.index] at hs'

/-- Every run is of one of two kinds: some step fails first, or every test passes. -/
theorem fails_first_or_all_pass (p : Platform) (env : Env) :
    (∃ s, fails_first p env s) ∨ ∀ s : Step, s.passes p env := by
  by_cases h : ∀ s : Step, s.passes p env
  · exact Or.inr h
  · push_neg at h
    obtain ⟨s, hs⟩ := h
    obtain ⟨s0, -, hs0⟩ := fails_first_of_not_passes p env s hs
    exact Or.inl ⟨s0, hs0⟩

/-- A run whose initialisation fails (a `_WIN32` build). -/
theorem main_fails_init (p : Platform) (env : Env) (h : fails_first p env .init) :
    main p env = ⟨[Event.WSAStartup 2 2 env.WSAStartup_ret,
      Event.fprintf_stderr "Failed to initialize.\n" []], some 1⟩ := by
  have h0 := h.2
  simp only [Step.passes, Classical.not_imp] at h0
  simp [main, h0.1, h0.2]

/-- A run whose first failing step comes after the initialisation. -/
theorem main_fails (p : Platform) (env : Env) (s : Step) (hs : s ≠ .init)
    (h : fails_first p env s) :
    main p env = ⟨calls_through p env s ++
      [Event.fprintf_stderr (diagnostic s) [Arg.int (GETSOCKETERRNO p env)]] ++ cleanup p,
      some 1⟩ := by
  obtain ⟨hprev, hfail⟩ := h
  have hi : ¬ (p.win32 = true ∧ ¬ env.WSAStartup_ret = 0) := by
    have h0 : Step.init.passes p env :=
      hprev .init (by cases s <;> simp [Step.index] at hs ⊢)
    simp only [Step.passes] at h0
    tauto
  cases s with
  | init => exact absurd rfl hs
  | getaddrinfo =>
    simp only [Step.passes] at hfail
    simp [main, fail, calls_through, diagnostic, hi, hfail]
  | socket =>
    have h1 : Step.getaddrinfo.passes p env := hprev _ (by simp [Step.index])
    simp only [Step.passes] at hfail h1
    simp [main, fail, calls_through, diagnostic, hi, hfail, h1]
  | bind =>
    have h1 : Step.getaddrinfo.passes p env := hprev _ (by simp [Step.index])
    have h2 : Step.socket.passes p env := hprev _ (by simp [Step.index])
    simp only [Step.passes] at hfail h1 h2
    simp [main, fail, calls_through, diagnostic, hi, hfail, h1, h2]
  | listen =>
    have h1 : Step.getaddrinfo.passes p env := hprev _ (by simp [Step.index])
    have h2 : Step.socket.passes p env := hprev _ (by simp [Step.index])
    have h3 : Step.bind.passes p env := hprev _ (by simp [Step.index])
    simp only [Step.passes, not_not] at hfail h1 h2 h3
    simp [main, fail, calls_through, diagnostic, hi, hfail, h1, h2, h3]
  | accept =>
    have h1 : Step.getaddrinfo.passes p env := hprev _ (by simp [Step.index])
    have h2 : Step.socket.passes p env := hprev _ (by simp [Step.index])
    have h3 : Step.bind.passes p env := hprev _ (by simp [Step.index])
    have h4 : Step.listen.passes p env := hprev _ (by simp [Step.index])
    simp only [Step.passes] at hfail h1 h2 h3 h4
    simp [main, fail, calls_through, diagnostic, hi, hfail, h1, h2, h3, h4]

/-- A run in which every test passes and the time string fits the response array. -/
theorem main_passes (p : Platform) (env : Env) (t : List Nat)
    (hpass : ∀ s : Step, s.passes p env)
    (ht : ctime_string env = some t) (hlen : t.length ≤ 944) :
    main p env = ⟨calls_through p env .accept ++ calls_before_response p env ++
      [Event.send env.socket_client (response_with t) (79 + t.length) 0 env.bytes_sent,
       Event.printf "Sent %d of %d bytes.\n"
         [Arg.int env.bytes_sent, Arg.int (79 + t.length : Nat)],
       Event.printf "Closing connection...\n" [],
       Event.CLOSESOCKET env.socket_client] ++
      cleanup p ++ [Event.printf "Finished.\n" []], some 0⟩ := by
  have h0 := hpass .init
  have h1 := hpass .getaddrinfo
  have h2 := hpass .socket
  have h3 := hpass .bind
  have h4 := hpass .listen
  have h5 := hpass .accept
  simp only [Step.passes, not_lt] at h0 h1 h2 h3 h4 h5
  have hi : ¬ (p.win32 = true ∧ ¬ env.WSAStartup_ret = 0) := by tauto
  obtain ⟨hnul, rest, hrest⟩ := ctime_string_eq_some env t ht
  have hcat := strcat_response_fits t rest hnul hlen
  rw [← hrest] at hcat
  have hsl := strlen_response_with t hnul
  simp [main, calls_through, calls_before_response, hi, h1, h2, h3, h4, h5, hcat, hsl,
    RECV_BUFFER_SIZE]

/-- A run in which every test passes but `strcat` leaves the response array (or is handed
a null pointer): the run is undefined from there, nothing has been sent. -/
theorem main_undefined (p : Platform) (env : Env) (hpass : ∀ s : Step, s.passes p env)
    (hcat : strcat response_init env.time = none) :
    main p env = ⟨calls_through p env .accept ++ calls_before_response p env, none⟩ := by
  have h0 := hpass .init
  have h1 := hpass .getaddrinfo
  have h2 := hpass .socket
  have h3 := hpass .bind
  have h4 := hpass .listen
  have h5 := hpass .accept
  simp only [Step.passes, not_lt] at h0 h1 h2 h3 h4 h5
  have hi : ¬ (p.win32 = true ∧ ¬ env.WSAStartup_ret = 0) := by tauto
  simp [main, calls_through, calls_before_response, hi, h1, h2, h3, h4, h5, hcat,
    RECV_BUFFER_SIZE]

/-- The three shapes a run with every test passing can take, by what `ctime` returns. -/
theorem time_cases (env : Env) :
    (∃ t, ctime_string env = some t ∧ t.length ≤ 944) ∨
      strcat response_init env.time = none := by
  cases ht : ctime_string env with
  | none => exact Or.inr (ctime_string_eq_none env ht)
  | some t =>
    by_cases hlen : t.length ≤ 944
    · exact Or.inl ⟨t, rfl, hlen⟩
    · exact Or.inr (strcat_too_long env t ht (by omega))

theorem main_status_of_not_ok (p : Platform) (env : Env) (hl : listen_conforms env)
    (h : ¬ all_ok p env) : (main p env).status = some 1 := by
  obtain ⟨s, hs⟩ := (not_all_ok_iff p env).1 h
  have hs' : ¬ s.passes p env := fun hp => hs (Step.ok_of_passes p env s hl hp)
  obtain ⟨s0, -, hs0⟩ := fails_first_of_not_passes p env s hs'
  by_cases hi : s0 = .init
  · subst hi
    rw [main_fails_init p env hs0]
  · rw [main_fails p env s0 hi hs0]

theorem calls_through_sent (p : Platform) (env : Env) (s : Step) :
    (calls_through p env s).filterMap Event.sent = [] := by
  cases s <;> cases hw : p.win32 <;> simp [calls_through, hw, Event.sent]

theorem main_outcome (p : Platform) (env : Env) (hok : all_ok p env) :
    ((main p env).sent, (main p env).status) = outcome_of_time (ctime_string env) := by
  have hpass := all_ok_passes p env hok
  cases ht : ctime_string env with
  | none =>
    rw [main_undefined p env hpass (ctime_string_eq_none env ht)]
    simp [outcome_of_time, Run.sent, calls_through_sent, calls_before_response, Event.sent]
  | some t =>
    by_cases hlen : t.length ≤ 944
    · rw [main_passes p env t hpass ht hlen]
      cases hw : p.win32 <;>
        simp [outcome_of_time, Run.sent, Event.sent, hlen, cleanup, hw, response_with_take,
          calls_through_sent, calls_before_response]
    · rw [main_undefined p env hpass (strcat_too_long env t ht (by omega))]
      simp [outcome_of_time, Run.sent, calls_through_sent, calls_before_response, Event.sent,
        hlen]

theorem ctime_string_env_ok : ctime_string env_ok = some sample_time := by decide

/-! ## The claims -/

/-- C1. With `listen` answering as its interface says, `main` returns 0 only if every
fallible step (initialisation, `getaddrinfo`, `socket`, `bind`, `listen`, `accept`) succeeds;
it does return 0 when they all succeed and `ctime` hands back a string that fits the response
array; it returns exactly 1 when one of them fails; and it never returns another value. -/
theorem main_exit_status (p : Platform) (env : Env) (hl : listen_conforms env) :
    ((main p env).status = some 0 → all_ok p env) ∧
    (all_ok p env → ∀ t, ctime_string env = some t → t.length ≤ 944 →
      (main p env).status = some 0) ∧
    (¬ all_ok p env → (main p env).status = some 1) ∧
    (∀ v, (main p env).status = some v → v = 0 ∨ v = 1) := by
  refine ⟨?_, fun hok t ht hlen => ?_, ?_, ?_⟩
  · intro h
    by_contra hno
    rw [main_status_of_not_ok p env hl hno] at h
    simp at h
  · rw [main_passes p env t (all_ok_passes p env hok) ht hlen]
  · exact main_status_of_not_ok p env hl
  · intro v hv
    by_cases hok : all_ok p env
    · have h := congrArg Prod.snd (main_outcome p env hok)
      simp only at h
      rw [h] at hv
      cases ht : ctime_string env with
      | none => simp [ht, outcome_of_time] at hv
      | some t =>
        by_cases hlen : t.length ≤ 944
        · simp [ht, outcome_of_time, hlen] at hv
          exact Or.inl hv.symm
        · simp [ht, outcome_of_time, hlen] at hv
    · rw [main_status_of_not_ok p env hl hok] at hv
      simp at hv
      exact Or.inr hv.symm

/-- C1 at a sample: on Linux, the all-success world returns 0 and the same world with
`listen` failing returns 1. -/
theorem main_exit_status_witness :
    (main linux env_ok).status = some 0 ∧
    (main linux { env_ok with listen_ret := -1 }).status = some 1 :=
  ⟨(main_exit_status linux env_ok (by decide)).2.1 (by decide) sample_time
      ctime_string_env_ok (by decide),
   (main_exit_status linux { env_ok with listen_ret := -1 } (by decide)).2.2.1 (by decide)⟩

theorem calls_through_isSend (p : Platform) (env : Env) (s : Step) :
    (calls_through p env s).filter Event.isSend = [] := by
  cases s <;> cases hw : p.win32 <;> simp [calls_through, hw, Event.isSend]

theorem main_passes_sends (p : Platform) (env : Env) (t : List Nat)
    (hpass : ∀ s : Step, s.passes p env)
    (ht : ctime_string env = some t) (hlen : t.length ≤ 944) :
    (main p env).trace.filter Event.isSend =
      [Event.send env.socket_client (response_with t) (79 + t.length) 0 env.bytes_sent] := by
  rw [main_passes p env t hpass ht hlen]
  cases hw : p.win32 <;>
    simp [calls_through_isSend, calls_before_response, cleanup, hw, Event.isSend]

/-- C2. When every step succeeds and `ctime` returns the (NUL-free) string `t`, of at most
944 bytes, the run calls `send` once, with requested length `79 + |t|`; the bytes handed over
are the bytes of the fixed header-and-label text followed by `t`; they hold no NUL; they end
with the last byte of `t` (its newline, byte 10, when `t` ends with one); and for a 25-byte
`t` the length is 104. -/
theorem response_bytes (p : Platform) (env : Env) (t : List Nat) (hok : all_ok p env)
    (ht : ctime_string env = some t) (hlen : t.length ≤ 944) :
    response_literal =
      "HTTP/1.1 200 OK\r\nConnection: close\r\nContent-Type: text/plain\r\n\r\nLocal time is: " ∧
    (∃ buf, (main p env).trace.filter Event.isSend =
        [Event.send env.socket_client buf (79 + t.length) 0 env.bytes_sent]) ∧
    (main p env).sent = [bytes response_literal ++ t] ∧
    (bytes response_literal ++ t).length = 79 + t.length ∧
    0 ∉ bytes response_literal ++ t ∧
    (∀ c, t.getLast? = some c → (bytes response_literal ++ t).getLast? = some c) ∧
    (t.length = 25 → (bytes response_literal ++ t).length = 104) := by
  have hout := main_outcome p env hok
  rw [ht] at hout
  simp only [outcome_of_time, hlen, if_true, Prod.mk.injEq] at hout
  have hnul := (ctime_string_eq_some env t ht).1
  have hl79 : (bytes response_literal ++ t).length = 79 + t.length := by
    rw [List.length_append, bytes_response_literal_length]
  refine ⟨rfl, ⟨response_with t, ?_⟩, hout.1, hl79, ?_, ?_, fun h25 => by rw [hl79, h25]⟩
  · exact main_passes_sends p env t (all_ok_passes p env hok) ht hlen
  · intro hmem
    rcases List.mem_append.1 hmem with h | h
    · exact bytes_response_literal_nul_free h
    · exact hnul h
  · intro c hc
    rw [List.getLast?_append, hc]
    rfl

/-- C2 at a sample: the all-success world on Linux, whose `ctime` returns
`Fri Oct 30 04:00:00 2026` and a newline. -/
theorem response_bytes_witness :
    (main linux env_ok).sent = [bytes response_literal ++ sample_time] ∧
    (bytes response_literal ++ sample_time).length = 104 :=
  ⟨(response_bytes linux env_ok sample_time (by decide) ctime_string_env_ok
      (by decide)).2.2.1,
   (response_bytes linux env_ok sample_time (by decide) ctime_string_env_ok
      (by decide)).2.2.2.2.2.2 (by decide)⟩

/-- C3. Two runs in which every step through `accept` succeeds and `ctime` returns the same
string hand the same bytes to `send` and return the same status, whatever `recv` stores in
`request` and whatever it returns (the two worlds may differ in everything else). -/
theorem response_independent_of_request (p : Platform) (e1 e2 : Env)
    (h1 : all_ok p e1) (h2 : all_ok p e2) (ht : ctime_string e1 = ctime_string e2) :
    (main p e1).sent = (main p e2).sent ∧ (main p e1).status = (main p e2).status := by
  have o1 := main_outcome p e1 h1
  have o2 := main_outcome p e2 h2
  rw [ht, ← o2] at o1
  exact ⟨congrArg Prod.fst o1, congrArg Prod.snd o1⟩

/-- C3 at a sample: the peer that sends a 16-byte request and the peer that closes at once
(`recv` returns 0 and stores nothing) get the same response. -/
theorem response_independent_of_request_witness :
    (main linux env_ok).sent =
        (main linux { env_ok with request := [], bytes_received := 0 }).sent ∧
    (main linux env_ok).status =
        (main linux { env_ok with request := [], bytes_received := 0 }).status :=
  response_independent_of_request linux env_ok
    { env_ok with request := [], bytes_received := 0 } (by decide) (by decide) rfl

theorem calls_through_accept_isSend (p : Platform) (env : Env) :
    (calls_through p env .accept ++ calls_before_response p env).all
      (fun e => !e.isSend) = true := by
  cases hw : p.win32 <;> simp [calls_through, calls_before_response, hw, Event.isSend]

/-- C8. On the success path, whatever value `r` the call of `send` returns: the run holds
exactly one `send`, whose requested length is `strlen(response)` (`79 + |t|`); what follows
it is the report `printf`, the `printf` of the closing, `CLOSESOCKET(socket_client)`, the
conditional `WSACleanup` and the last `printf`, with no second `send`; and `main` returns 0. -/
theorem send_result_unchecked (p : Platform) (env : Env) (t : List Nat) (r : Int)
    (hok : all_ok p env) (ht : ctime_string env = some t) (hlen : t.length ≤ 944) :
    ∃ pre buf,
      (main p { env with bytes_sent := r }).trace =
        pre ++ [Event.send env.socket_client buf (79 + t.length) 0 r,
          Event.printf "Sent %d of %d bytes.\n" [Arg.int r, Arg.int (79 + t.length : Nat)],
          Event.printf "Closing connection...\n" [],
          Event.CLOSESOCKET env.socket_client] ++ cleanup p ++
          [Event.printf "Finished.\n" []] ∧
      pre.all (fun e => !e.isSend) = true ∧
      strlen buf = some (79 + t.length) ∧
      (main p { env with bytes_sent := r }).trace.countP Event.isSend = 1 ∧
      (main p { env with bytes_sent := r }).status = some 0 := by
  have hok' : all_ok p { env with bytes_sent := r } := hok
  have ht' : ctime_string { env with bytes_sent := r } = some t := ht
  have hnul := (ctime_string_eq_some env t ht).1
  have hpass := all_ok_passes p _ hok'
  have hm := main_passes p { env with bytes_sent := r } t hpass ht' hlen
  refine ⟨calls_through p { env with bytes_sent := r } .accept ++
    calls_before_response p { env with bytes_sent := r }, response_with t, ?_, ?_, ?_, ?_, ?_⟩
  · rw [hm]
  · exact calls_through_accept_isSend p _
  · exact strlen_response_with t hnul
  · rw [List.countP_eq_length_filter, main_passes_sends p _ t hpass ht' hlen]
    rfl
  · rw [hm]

/-- C8 at a sample: `send` fails (-1) on Linux; the client handle 4 is still closed, no other
`send` is made and `main` returns 0. -/
theorem send_result_unchecked_witness :
    ∃ pre buf,
      (main linux { env_ok with bytes_sent := -1 }).trace =
        pre ++ [Event.send 4 buf (79 + sample_time.length) 0 (-1),
          Event.printf "Sent %d of %d bytes.\n"
            [Arg.int (-1), Arg.int (79 + sample_time.length : Nat)],
          Event.printf "Closing connection...\n" [],
          Event.CLOSESOCKET 4] ++ cleanup linux ++
          [Event.printf "Finished.\n" []] ∧
      pre.all (fun e => !e.isSend) = true ∧
      strlen buf = some (79 + sample_time.length) ∧
      (main linux { env_ok with bytes_sent := -1 }).trace.countP Event.isSend = 1 ∧
      (main linux { env_ok with bytes_sent := -1 }).status = some 0 :=
  send_result_unchecked linux env_ok sample_time (-1) (by decide) ctime_string_env_ok
    (by decide)

/-- C9. On the success path the calls of the socket interface are, in this order and with
these arguments: `getaddrinfo(0, "3000", hints)` with the hints AF_INET, SOCK_STREAM,
IPPROTO_TCP, AI_PASSIVE, `socket`, `bind`, `freeaddrinfo`, `listen` with backlog 10, `accept`,
`CLOSESOCKET(socket_listen)`, `getnameinfo`, `recv` of at most 1024 bytes, `send`,
`CLOSESOCKET(socket_client)`. `accept`, `recv` and `send` each occur once and no `recv` asks
for more than 1024 bytes. A `_WIN32` build brackets the sequence with `WSAStartup` and
`WSACleanup`, the other build adds nothing. -/
theorem success_path_socket_calls (p : Platform) (env : Env) (t : List Nat)
    (hok : all_ok p env) (ht : ctime_string env = some t) (hlen : t.length ≤ 944) :
    (∃ buf, (main p env).trace.filter Event.isSocketOp =
      [Event.getaddrinfo none "3000"
         { ai_flags := p.AI_PASSIVE, ai_family := p.AF_INET, ai_socktype := p.SOCK_STREAM,
           ai_protocol := p.IPPROTO_TCP, ai_addrlen := 0, ai_addr := [] }
         env.getaddrinfo_ret,
       Event.socket env.bind_address.ai_family env.bind_address.ai_socktype
         env.bind_address.ai_protocol env.socket_listen,
       Event.bind env.socket_listen env.bind_address.ai_addr env.bind_address.ai_addrlen
         env.bind_ret,
       Event.freeaddrinfo env.bind_address,
       Event.listen env.socket_listen 10 env.listen_ret,
       Event.accept env.socket_listen p.sizeof_sockaddr_storage env.socket_client,
       Event.CLOSESOCKET env.socket_listen,
       Event.getnameinfo env.client_address env.client_len 100 0 p.NI_NUMERICHOST
         env.getnameinfo_ret,
       Event.recv env.socket_client 1024 0 env.bytes_received,
       Event.send env.socket_client buf (79 + t.length) 0 env.bytes_sent,
       Event.CLOSESOCKET env.socket_client]) ∧
    (main p env).trace.countP Event.isAccept = 1 ∧
    (main p env).trace.countP Event.isRecv = 1 ∧
    (main p env).trace.countP Event.isSend = 1 ∧
    (∀ s len flags r, Event.recv s len flags r ∈ (main p env).trace → len ≤ 1024) ∧
    (main p env).trace.filter Event.isWinsockLifecycle =
      (if p.win32 then [Event.WSAStartup 2 2 env.WSAStartup_ret, Event.WSACleanup] else []) ∧
    (main p env).status = some 0 := by
  have hpass := all_ok_passes p env hok
  have hm := main_passes p env t hpass ht hlen
  refine ⟨⟨response_with t, ?_⟩, ?_, ?_, ?_, ?_, ?_, ?_⟩
  · rw [hm]
    cases hw : p.win32 <;>
      simp [calls_through, calls_before_response, cleanup, hints, hw, Event.isSocketOp]
  · rw [hm]
    cases hw : p.win32 <;>
      simp [calls_through, calls_before_response, cleanup, hw, Event.isAccept]
  · rw [hm]
    cases hw : p.win32 <;>
      simp [calls_through, calls_before_response, cleanup, hw, Event.isRecv]
  · rw [List.countP_eq_length_filter, main_passes_sends p env t hpass ht hlen]
    rfl
  · rw [hm]
    cases hw : p.win32 <;>
      simp [calls_through, calls_before_response, cleanup, hw]
    all_goals
      intro s len flags r h
      omega
  · rw [hm]
    cases hw : p.win32 <;>
      simp [calls_through, calls_before_response, cleanup, hw, Event.isWinsockLifecycle]
  · rw [hm]

/-- C9 at a sample: the all-success world on a Windows build makes one `accept`, one `recv`
and one `send`, between `WSAStartup` and `WSACleanup`, and returns 0. -/
theorem success_path_socket_calls_witness :
    (main windows env_ok).trace.countP Event.isAccept = 1 ∧
    (main windows env_ok).trace.countP Event.isRecv = 1 ∧
    (main windows env_ok).trace.countP Event.isSend = 1 ∧
    (∀ s len flags r, Event.recv s len flags r ∈ (main windows env_ok).trace → len ≤ 1024) ∧
    (main windows env_ok).trace.filter Event.isWinsockLifecycle =
      (if windows.win32 then [Event.WSAStartup 2 2 env_ok.WSAStartup_ret, Event.WSACleanup]
        else []) ∧
    (main windows env_ok).status = some 0 :=
  (success_path_socket_calls windows env_ok sample_time (by decide) ctime_string_env_ok
    (by decide)).2

/-- C10. `strcat(response, time)` for a NUL-terminated time string `t`: the array has 1024
bytes and starts with a 79-byte string; when `|t| ≤ 944` every write stays inside the array,
the string and its NUL then occupy `79 + |t| + 1 ≤ 1024` bytes (105 for a 25-byte `t`) and
the bytes behind them are untouched; a write leaves the array exactly when `|t| ≥ 945`. -/
theorem strcat_within_response (t rest : List Nat) (ht : 0 ∉ t) :
    response_init.length = 1024 ∧ strlen response_init = some 79 ∧
    (t.length ≤ 944 → ∃ r n, strcat response_init (some (t ++ 0 :: rest)) = some r ∧
      r.length = 1024 ∧ strlen r = some n ∧ n + 1 = 79 + t.length + 1 ∧ n + 1 ≤ 1024 ∧
      r.take (n + 1) = bytes response_literal ++ t ++ [0] ∧
      r.drop (n + 1) = response_init.drop (n + 1) ∧
      (t.length = 25 → n + 1 = 105)) ∧
    (strcat response_init (some (t ++ 0 :: rest)) = none ↔ 945 ≤ t.length) := by
  have hlen0 : response_init.length = 1024 := by
    rw [response_init_eq, List.length_append, List.length_replicate,
      bytes_response_literal_length]
  refine ⟨hlen0, strlen_response_init, fun hlen => ?_, ?_⟩
  · refine ⟨response_with t, 79 + t.length, strcat_response_fits t rest ht hlen, ?_,
      strlen_response_with t ht, rfl, by omega, ?_, ?_, fun h => by omega⟩
    · unfold response_with
      simp only [List.length_append, List.length_cons, List.length_replicate,
        bytes_response_literal_length]
      omega
    · have h : 79 + t.length + 1 = (bytes response_literal ++ t ++ [0]).length := by
        simp only [List.length_append, List.length_singleton, bytes_response_literal_length]
      have hr : response_with t =
          (bytes response_literal ++ t ++ [0]) ++ List.replicate (944 - t.length) 0 := by
        unfold response_with
        simp only [List.append_assoc, List.singleton_append]
      rw [hr, h]
      exact List.take_left _ _
    · have h : 79 + t.length + 1 = (bytes response_literal ++ t ++ [0]).length := by
        simp only [List.length_append, List.length_singleton, bytes_response_literal_length]
      have hr : response_with t =
          (bytes response_literal ++ t ++ [0]) ++ List.replicate (944 - t.length) 0 := by
        unfold response_with
        simp only [List.append_assoc, List.singleton_append]
      have h79 : 79 + t.length + 1 = (bytes response_literal).length + (t.length + 1) := by
        rw [bytes_response_literal_length]
        omega
      rw [hr, h, List.drop_left, ← h, h79, response_init_eq, List.drop_append,
        List.drop_replicate]
      congr 1
      omega
  · constructor
    · intro hnone
      by_contra hlt
      rw [strcat_response_fits t rest ht (by omega)] at hnone
      simp at hnone
    · exact strcat_response_overflows t rest ht

/-- C10 at a sample: a 25-byte time string and its NUL end at byte 105 of the array. -/
theorem strcat_within_response_witness :
    ∃ r n, strcat response_init (some (sample_time ++ 0 :: [])) = some r ∧
      r.length = 1024 ∧ strlen r = some n ∧ n + 1 = 79 + sample_time.length + 1 ∧
      n + 1 ≤ 1024 ∧
      r.take (n + 1) = bytes response_literal ++ sample_time ++ [0] ∧
      r.drop (n + 1) = response_init.drop (n + 1) ∧
      (sample_time.length = 25 → n + 1 = 105) :=
  (strcat_within_response sample_time [] (by decide)).2.2.1 (by decide)

theorem calls_through_no_accept (p : Platform) (env : Env) (s : Step) (hs : s ≠ .accept) :
    (calls_through p env s).any Event.isAccept = false := by
  cases s <;> cases hw : p.win32 <;>
    first
    | exact absurd rfl hs
    | simp [calls_through, hw, Event.isAccept]

theorem closed_right_after_accept_of_fail (p : Platform) (env : Env) :
    closed_right_after_accept p env (calls_through p env .accept ++
      [Event.fprintf_stderr (diagnostic .accept) [Arg.int (GETSOCKETERRNO p env)]] ++
      cleanup p) := by
  refine ⟨⟨calls_through p env .listen ++ [Event.printf "Waiting for connection...\n" []],
    [Event.fprintf_stderr (diagnostic .accept) [Arg.int (GETSOCKETERRNO p env)]] ++
      cleanup p, ?_, ?_, ?_⟩, ?_, ?_, ?_⟩ <;>
  cases hw : p.win32 <;>
  simp [calls_through, cleanup, hw, noUseAfterClose, Event.handle, Event.isAccept]

theorem closed_right_after_accept_of_undefined (p : Platform) (env : Env)
    (hdist : env.socket_client ≠ env.socket_listen) :
    closed_right_after_accept p env
      (calls_through p env .accept ++ calls_before_response p env) := by
  refine ⟨⟨calls_through p env .listen ++ [Event.printf "Waiting for connection...\n" []],
    calls_before_response p env, ?_, ?_, ?_⟩, ?_, ?_, ?_⟩ <;>
  cases hw : p.win32 <;>
  simp [calls_through, calls_before_response, hw, noUseAfterClose, Event.handle,
    Event.isAccept, hdist, Ne.symm hdist]

theorem closed_right_after_accept_of_passes (p : Platform) (env : Env) (buf : List Nat)
    (n : Nat) (hdist : env.socket_client ≠ env.socket_listen) :
    closed_right_after_accept p env
      (calls_through p env .accept ++ calls_before_response p env ++
        [Event.send env.socket_client buf n 0 env.bytes_sent,
         Event.printf "Sent %d of %d bytes.\n" [Arg.int env.bytes_sent, Arg.int n],
         Event.printf "Closing connection...\n" [],
         Event.CLOSESOCKET env.socket_client] ++
        cleanup p ++ [Event.printf "Finished.\n" []]) := by
  refine ⟨⟨calls_through p env .listen ++ [Event.printf "Waiting for connection...\n" []],
    calls_before_response p env ++
        [Event.send env.socket_client buf n 0 env.bytes_sent,
         Event.printf "Sent %d of %d bytes.\n" [Arg.int env.bytes_sent, Arg.int n],
         Event.printf "Closing connection...\n" [],
         Event.CLOSESOCKET env.socket_client] ++
        cleanup p ++ [Event.printf "Finished.\n" []], ?_, ?_, ?_⟩, ?_, ?_, ?_⟩ <;>
  cases hw : p.win32 <;>
  simp [calls_through, calls_before_response, cleanup, hw, noUseAfterClose, Event.handle,
    Event.isAccept, hdist, Ne.symm hdist]

/-- C4. In a run that reaches `accept` (an accepted handle that is valid being another
handle than the listening one): `accept` is directly followed by
`CLOSESOCKET(socket_listen)`, whether the accepted handle is valid or not; that is the only
close of the listening handle; no later call takes the listening handle; and no call takes
the client handle after its close. -/
theorem listening_socket_closed_after_accept (p : Platform) (env : Env)
    (hreach : (main p env).trace.any Event.isAccept = true)
    (hdist : ISVALIDSOCKET p env.socket_client = true →
      env.socket_client ≠ env.socket_listen) :
    closed_right_after_accept p env (main p env).trace := by
  rcases fails_first_or_all_pass p env with ⟨s, hs⟩ | hpass
  · by_cases hi : s = .init
    · subst hi
      rw [main_fails_init p env hs] at hreach
      simp [Event.isAccept] at hreach
    · rw [main_fails p env s hi hs] at hreach ⊢
      by_cases ha : s = .accept
      · subst ha
        exact closed_right_after_accept_of_fail p env
      · exfalso
        have hno := calls_through_no_accept p env s ha
        cases hw : p.win32 <;>
          simp [cleanup, hw, Event.isAccept] at hreach hno <;>
          obtain ⟨e, he, hacc⟩ := hreach <;>
          simp [hno e he] at hacc
  · have hd := hdist (hpass .accept)
    rcases time_cases env with ⟨t, ht, hlen⟩ | hcat
    · rw [main_passes p env t hpass ht hlen]
      exact closed_right_after_accept_of_passes p env _ _ hd
    · rw [main_undefined p env hpass hcat]
      exact closed_right_after_accept_of_undefined p env hd

/-- C4 at a sample: the all-success world on Linux, listening handle 3, client handle 4. -/
theorem listening_socket_closed_after_accept_witness :
    closed_right_after_accept linux env_ok (main linux env_ok).trace :=
  listening_socket_closed_after_accept linux env_ok
    (by
      rw [main_passes linux env_ok sample_time (all_ok_passes linux env_ok (by decide))
        ctime_string_env_ok (by decide)]
      simp [calls_through, Event.isAccept])
    (by decide)

theorem calls_through_steps (p : Platform) (env : Env) (s : Step) :
    ∀ e ∈ calls_through p env s,
      (∀ s', e.step = some s' → s'.index ≤ s.index) ∧ e.isRecv = false ∧ e.isSend = false := by
  cases s <;> cases hw : p.win32 <;>
    simp [calls_through, hw, Event.step, Event.isRecv, Event.isSend, Step.index]

/-- C5. With `listen` answering as its interface says: when the answer to a step is a
failure, no call of a later step in the order init, getaddrinfo, socket, bind, listen, accept
is made, neither `recv` nor `send` is called, nothing is sent, and `main` returns 1. -/
theorem fail_fast (p : Platform) (env : Env) (s : Step) (hl : listen_conforms env)
    (hfail : ¬ s.ok p env) :
    (∀ e ∈ (main p env).trace,
      (∀ s', e.step = some s' → s'.index ≤ s.index) ∧ e.isRecv = false ∧ e.isSend = false) ∧
    (main p env).sent = [] ∧ (main p env).status = some 1 := by
  have hnp : ¬ s.passes p env := fun hp => hfail (Step.ok_of_passes p env s hl hp)
  obtain ⟨s0, hle, hs0⟩ := fails_first_of_not_passes p env s hnp
  by_cases hi : s0 = .init
  · subst hi
    rw [main_fails_init p env hs0]
    simp [Run.sent, Event.sent, Event.step, Event.isRecv, Event.isSend, Step.index]
  · rw [main_fails p env s0 hi hs0]
    have hct := calls_through_steps p env s0
    refine ⟨?_, ?_, rfl⟩
    · intro e he
      simp only [List.mem_append, List.mem_singleton] at he
      rcases he with (he | he) | he
      · obtain ⟨h1, h2, h3⟩ := hct e he
        exact ⟨fun s' hs' => le_trans (h1 s' hs') hle, h2, h3⟩
      · subst he
        simp [Event.step, Event.isRecv, Event.isSend]
      · cases hw : p.win32 <;> simp [cleanup, hw] at he
        subst he
        simp [Event.step, Event.isRecv, Event.isSend]
    · cases hw : p.win32 <;>
        simp [Run.sent, calls_through_sent, cleanup, hw, Event.sent]

/-- C5 at a sample: `bind` fails on Linux (port taken). -/
theorem fail_fast_witness :
    (∀ e ∈ (main linux env_bind_fails).trace,
      (∀ s', e.step = some s' → s'.index ≤ Step.bind.index) ∧
        e.isRecv = false ∧ e.isSend = false) ∧
    (main linux env_bind_fails).sent = [] ∧ (main linux env_bind_fails).status = some 1 :=
  fail_fast linux env_bind_fails .bind (by decide) (by decide)

/-- C6, as stated, fails: when `bind` fails (port taken, Linux), `bind` has been called,
`freeaddrinfo` is never called, and `main` returns 1. -/
theorem bind_failure_skips_freeaddrinfo :
    (main linux env_bind_fails).trace.any Event.isBind = true ∧
    (main linux env_bind_fails).trace.any Event.isFreeaddrinfo = false ∧
    (main linux env_bind_fails).status = some 1 := by
  decide

theorem calls_through_bind_free (p : Platform) (env : Env) (s : Step) :
    (calls_through p env s).filter (fun e => e.isBind || e.isFreeaddrinfo) =
      if s.index < 3 then []
      else if s.index = 3 then
        [Event.bind env.socket_listen env.bind_address.ai_addr env.bind_address.ai_addrlen
          env.bind_ret]
      else
        [Event.bind env.socket_listen env.bind_address.ai_addr env.bind_address.ai_addrlen
          env.bind_ret, Event.freeaddrinfo env.bind_address] := by
  cases s <;> cases hw : p.win32 <;>
    simp [calls_through, hw, Event.isBind, Event.isFreeaddrinfo, Step.index]

/-- C6, amended. In a run in which `bind` is called: when `bind` succeeds, `bind_address` is
released by one `freeaddrinfo`, made after `bind` (these are the only two calls of the two
kinds); when `bind` fails, `freeaddrinfo` is not called and `main` returns 1. -/
theorem freeaddrinfo_after_successful_bind (p : Platform) (env : Env)
    (hcalled : (main p env).trace.any Event.isBind = true) :
    (env.bind_ret = 0 →
      (main p env).trace.filter (fun e => e.isBind || e.isFreeaddrinfo) =
        [Event.bind env.socket_listen env.bind_address.ai_addr env.bind_address.ai_addrlen
          env.bind_ret, Event.freeaddrinfo env.bind_address]) ∧
    (env.bind_ret ≠ 0 →
      (main p env).trace.filter (fun e => e.isBind || e.isFreeaddrinfo) =
        [Event.bind env.socket_listen env.bind_address.ai_addr env.bind_address.ai_addrlen
          env.bind_ret] ∧
      (main p env).status = some 1) := by
  have hany : ∀ tr : List Event, tr.any Event.isBind = true →
      tr.filter (fun e => e.isBind || e.isFreeaddrinfo) ≠ [] := by
    intro tr h hnil
    obtain ⟨e, he, hb⟩ := List.any_eq_true.1 h
    have : e ∈ tr.filter (fun e => e.isBind || e.isFreeaddrinfo) :=
      List.mem_filter.2 ⟨he, by simp [hb]⟩
    rw [hnil] at this
    simp at this
  have hne := hany _ hcalled
  rcases fails_first_or_all_pass p env with ⟨s, hs⟩ | hpass
  · by_cases hi : s = .init
    · subst hi
      rw [main_fails_init p env hs] at hne
      simp [Event.isBind, Event.isFreeaddrinfo] at hne
    · have hm := main_fails p env s hi hs
      have hf : (main p env).trace.filter (fun e => e.isBind || e.isFreeaddrinfo) =
          (calls_through p env s).filter (fun e => e.isBind || e.isFreeaddrinfo) := by
        rw [hm]
        cases hw : p.win32 <;> simp [cleanup, hw, Event.isBind, Event.isFreeaddrinfo]
      rw [hf] at hne ⊢
      rw [calls_through_bind_free] at hne ⊢
      obtain ⟨hprev, hfail⟩ := hs
      cases s with
      | init => exact absurd rfl hi
      | getaddrinfo => simp [Step.index] at hne
      | socket => simp [Step.index] at hne
      | bind =>
        simp only [Step.passes] at hfail
        exact ⟨fun h => absurd h hfail, fun _ => ⟨by simp [Step.index], by rw [hm]⟩⟩
      | listen =>
        have h3 : Step.bind.passes p env := hprev _ (by simp [Step.index])
        simp only [Step.passes] at h3
        exact ⟨fun _ => by simp [Step.index], fun h => absurd h3 h⟩
      | accept =>
        have h3 : Step.bind.passes p env := hprev _ (by simp [Step.index])
        simp only [Step.passes] at h3
        exact ⟨fun _ => by simp [Step.index], fun h => absurd h3 h⟩
  · have h3 := hpass .bind
    simp only [Step.passes] at h3
    refine ⟨fun _ => ?_, fun h => absurd h3 h⟩
    rcases time_cases env with ⟨t, ht, hlen⟩ | hcat
    · rw [main_passes p env t hpass ht hlen]
      simp only [List.filter_append, calls_through_bind_free]
      cases hw : p.win32 <;>
        simp [calls_before_response, cleanup, hw, Event.isBind, Event.isFreeaddrinfo,
          Step.index]
    · rw [main_undefined p env hpass hcat]
      simp only [List.filter_append, calls_through_bind_free]
      simp [calls_before_response, Event.isBind, Event.isFreeaddrinfo, Step.index]

/-- C6 amended, at a sample: the all-success world on Linux. -/
theorem freeaddrinfo_after_successful_bind_witness :
    (main linux env_ok).trace.filter (fun e => e.isBind || e.isFreeaddrinfo) =
      [Event.bind env_ok.socket_listen env_ok.bind_address.ai_addr
        env_ok.bind_address.ai_addrlen env_ok.bind_ret,
       Event.freeaddrinfo env_ok.bind_address] :=
  (freeaddrinfo_after_successful_bind linux env_ok
    (by
      rw [main_passes linux env_ok sample_time (all_ok_passes linux env_ok (by decide))
        ctime_string_env_ok (by decide)]
      simp [calls_through, Event.isBind])).1 (by decide)

/-- C7, as stated, fails for the initialisation: when `WSAStartup` fails (Windows build),
the run is `WSAStartup`, then the diagnostic `Failed to initialize.` with no argument at all,
so no error code is reported (`GETSOCKETERRNO()` is not even evaluated). -/
theorem init_failure_reports_no_error_code :
    ¬ all_ok windows env_init_fails ∧
    main windows env_init_fails =
      ⟨[Event.WSAStartup 2 2 10091, Event.fprintf_stderr "Failed to initialize.\n" []],
       some 1⟩ ∧
    ¬ handled_identically windows env_init_fails := by
  decide

theorem calls_through_no_cleanup (p : Platform) (env : Env) (s : Step) :
    (calls_through p env s).count Event.WSACleanup = 0 := by
  cases s <;> cases hw : p.win32 <;> simp [calls_through, hw]

/-- C7, amended. With `listen` answering as its interface says, in a run where some step
fails: if the initialisation did not fail, the run ends with a diagnostic on `stderr` whose
argument is the code of `GETSOCKETERRNO()` (format `<call>() failed. (%d)`), followed by
`WSACleanup` when compiled for `_WIN32`, so Winsock is torn down once if it was started and
never otherwise, and `main` returns 1; if the initialisation failed, the run is `WSAStartup`
and the diagnostic `Failed to initialize.` without an error code, and `main` returns 1. -/
theorem fatal_failure_handling (p : Platform) (env : Env) (hl : listen_conforms env)
    (hfail : ¬ all_ok p env) :
    (Step.init.ok p env →
      handled_identically p env ∧
      ∃ s pre, s ≠ Step.init ∧ (main p env).trace = pre ++
        [Event.fprintf_stderr (diagnostic s) [Arg.int (GETSOCKETERRNO p env)]] ++ cleanup p) ∧
    (¬ Step.init.ok p env →
      main p env = ⟨[Event.WSAStartup 2 2 env.WSAStartup_ret,
        Event.fprintf_stderr "Failed to initialize.\n" []], some 1⟩) := by
  obtain ⟨s, hs⟩ := (not_all_ok_iff p env).1 hfail
  have hnp : ¬ s.passes p env := fun hp => hs (Step.ok_of_passes p env s hl hp)
  obtain ⟨s0, -, hs0⟩ := fails_first_of_not_passes p env s hnp
  constructor
  · intro h0
    have hi : s0 ≠ .init := by
      rintro rfl
      exact hs0.2 (Step.passes_of_ok p env _ h0)
    have hm := main_fails p env s0 hi hs0
    refine ⟨⟨?_, ?_, by rw [hm]⟩, s0, calls_through p env s0, hi, by rw [hm]⟩
    · rw [hm]
      simp [Event.reports]
    · rw [hm]
      simp only [Step.ok] at h0
      cases hw : p.win32
      · simp [cleanup, hw, calls_through_no_cleanup]
      · simp [cleanup, hw, calls_through_no_cleanup, h0 hw]
  · intro h0
    have hff : fails_first p env .init :=
      ⟨fun s' hs' => by simp [Step.index] at hs', fun hp => h0 hp⟩
    exact main_fails_init p env hff

/-- C7 amended, at a sample: `bind` fails on Linux; the diagnostic carries `errno`. -/
theorem fatal_failure_handling_witness :
    handled_identically linux env_bind_fails ∧
    ∃ s pre, s ≠ Step.init ∧ (main linux env_bind_fails).trace = pre ++
      [Event.fprintf_stderr (diagnostic s) [Arg.int (GETSOCKETERRNO linux env_bind_fails)]] ++
      cleanup linux :=
  (fatal_failure_handling linux env_bind_fails (by decide) (by decide)).1 (by decide)

end ShowTime
